import Mathlib

/-!
Verification of the BDMP archive engine (src/core.py of
Blanko-s-Data-Managing-Protocol) against its natural-language
specification.

The development shallowly embeds the Python source:

* Python values that flow through the document tree (strings, ints,
  dicts, None) are modelled by the inductive type `BDMP.PVal`;
  Python dicts are association lists that preserve insertion order,
  with `dictInsert` giving the update-in-place-or-append semantics of
  CPython dict assignment.
* `Item`, `Section`, `Data`, `Info` from core.py become the structures
  `ItemT`, `SectionT`, `DataT`, `InfoT`; an ownership link
  (the Python `_parent` object reference) is a handle identifier `Nat`,
  and the open mode of each handle is looked up through a world function
  `Nat → Mode`.
* Exceptions become explicit error values (`PyErr`); a Python method
  that mutates `self` becomes a function returning the new state plus
  an optional error, the state being unchanged whenever an error is
  returned (CPython raises before the corresponding assignment).
* The pickle codec is treated as the identity on `PVal` payloads
  (dumps followed by loads is the identity), so `export_data` and
  `import_data` compose directly on `PVal`.
-/

namespace BDMP

/-- Python runtime values as they appear in BDMP payloads: None,
integers, strings, and dicts (insertion-ordered association lists). -/
inductive PVal where
  | none : PVal
  | int : Int → PVal
  | str : String → PVal
  | dict : List (String × PVal) → PVal

/-- Lookup in a Python dict modelled as an association list
(first binding wins; Python dicts have unique keys). -/
def alookup {α : Type} : List (String × α) → String → Option α
  | [], _ => Option.none
  | (k', v) :: t, k => if k' = k then some v else alookup t k

/-- CPython dict assignment: update the existing binding in place
(keeping its position in insertion order) or append a fresh one. -/
def dictInsert {α : Type} : List (String × α) → String → α → List (String × α)
  | [], k, v => [(k, v)]
  | (k', v') :: t, k, v =>
      if k' = k then (k', v) :: t else (k', v') :: dictInsert t k v

/-- CPython dict deletion of a present key. -/
def dictRemove {α : Type} : List (String × α) → String → List (String × α)
  | [], _ => []
  | (k', v') :: t, k => if k' = k then t else (k', v') :: dictRemove t k

/-- Open modes of a BDMFile handle (core.py line 507 restricts the mode
string to "r", "w", "r+"). -/
inductive Mode where
  | r : Mode
  | w : Mode
  | rp : Mode
deriving DecidableEq

/-- core.py line 510: readable iff the mode string contains "r". -/
def Mode.readable : Mode → Bool
  | .r => true
  | .w => false
  | .rp => true

/-- core.py line 511: writable iff the mode is "w" or "r+". -/
def Mode.writable : Mode → Bool
  | .r => false
  | .w => true
  | .rp => true

/-- Exceptions raised by the embedded code, mirroring src/exceptions.py
and the builtin exceptions used by core.py. -/
inductive PyErr where
  | typeError : PyErr
  | valueError : PyErr
  | keyError : String → PyErr
  | invalidFile : PyErr
  | versionError : Int → Int → PyErr
  | notWritable : PyErr
  | notReadable : PyErr
  | invalidParent : Nat → Nat → PyErr
  | fileNotFound : PyErr
  | fileExists : PyErr
deriving DecidableEq

/-- Supported format version (core.py line 18). -/
def VERSION : Int := 2

/-- An Item (core.py class Item): ownership link plus the five fields
set by the constructor.  Field values stay `PVal` because the source is
dynamically typed and the add_item defect (see below) stores values of
unexpected shapes in these fields. -/
structure ItemT where
  parent : Nat
  title : PVal
  content : PVal
  image_id : PVal
  level : PVal
  data : PVal

/-- A Section (core.py class Section): ownership link, two text fields,
and the insertion-ordered item mapping. -/
structure SectionT where
  parent : Nat
  type : PVal
  description : PVal
  content : List (String × ItemT)

/-- The Data root (core.py class Data): the section mapping. -/
structure DataT where
  parent : Nat
  sections : List (String × SectionT)

/-- The Info record (core.py class Info): display name and the
external-id to internal-storage-name file mapping. -/
structure InfoT where
  parent : Nat
  name : PVal
  files : List (String × String)

/-- A world maps each handle identifier (ownership link) to the open
mode of that handle; hierarchical nodes consult it through their
`parent` field exactly where the source reads `self._parent.writable`
or `self._parent.readable`. -/
abbrev World := Nat → Mode

/-- Item constructor with keyword semantics (core.py lines 26-47).
The Lean parameter order is the Python signature order:
(parent, title, content, level, data, image_id, image).
It stores `image_id` when that is not None, falling back to `image`,
and raises ValueError when both are None. -/
def Item.mk_py (parent : Nat) (title content level data image_id image : PVal) :
    Except PyErr ItemT :=
  match image_id, image with
  | PVal.none, PVal.none => .error PyErr.valueError
  | PVal.none, img => .ok ⟨parent, title, content, img, level, data⟩
  | iid, _ => .ok ⟨parent, title, content, iid, level, data⟩

/-- Section.__setitem__ (core.py lines 256-270): writable gate, then
ownership gate, then dict assignment.  Returns the (possibly updated)
section together with the raised error, if any. -/
def Section.setitem (w : World) (s : SectionT) (k : String) (v : ItemT) :
    SectionT × Option PyErr :=
  if !(w s.parent).writable then (s, some PyErr.notWritable)
  else if v.parent ≠ s.parent then
    (s, some (PyErr.invalidParent s.parent v.parent))
  else ({ s with content := dictInsert s.content k v }, Option.none)

/-- Section.__contains__ (core.py lines 211-225): readable gate, then
dict membership. -/
def Section.contains (w : World) (s : SectionT) (k : String) : Except PyErr Bool :=
  if !(w s.parent).readable then .error PyErr.notReadable
  else .ok (alookup s.content k).isSome

/-- Section.__delitem__ (core.py lines 243-254): writable gate, then
dict deletion (KeyError when the key is absent). -/
def Section.delitem (w : World) (s : SectionT) (k : String) :
    SectionT × Option PyErr :=
  if !(w s.parent).writable then (s, some PyErr.notWritable)
  else if (alookup s.content k).isSome then
    ({ s with content := dictRemove s.content k }, Option.none)
  else (s, some (PyErr.keyError k))

/-- Section.add_item (core.py lines 142-155).  The source calls
Item(self._parent, title, content, image_id, level, data) with
POSITIONAL arguments; against the Item signature
(parent, title, content, level, data, image_id, image) this binds
level := image_id, data := level, image_id := data, image := None.
The embedding reproduces that positional application verbatim.
`fresh` stands for the uuid1 hex generated when no name is given. -/
def Section.add_item (w : World) (s : SectionT)
    (title content image_id level : PVal) (name : Option String)
    (data : PVal) (fresh : String) : SectionT × Option PyErr :=
  let nm := name.getD fresh
  match Item.mk_py s.parent title content image_id level data PVal.none with
  | .error e => (s, some e)
  | .ok it => Section.setitem w s nm it

/-- Section.remove_item (core.py lines 157-168): membership test
(readable gate inside __contains__), ValueError when absent, then
deletion through __delitem__. -/
def Section.remove_item (w : World) (s : SectionT) (name : String) :
    SectionT × Option PyErr :=
  match Section.contains w s name with
  | .error e => (s, some e)
  | .ok b => if b then Section.delitem w s name else (s, some PyErr.valueError)

/-- Data.__setitem__ (core.py lines 372-386): writable gate, ownership
gate, dict assignment. -/
def Data.setitem (w : World) (d : DataT) (k : String) (v : SectionT) :
    DataT × Option PyErr :=
  if !(w d.parent).writable then (d, some PyErr.notWritable)
  else if v.parent ≠ d.parent then
    (d, some (PyErr.invalidParent d.parent v.parent))
  else ({ d with sections := dictInsert d.sections k v }, Option.none)

/-- Data.add_section (core.py lines 291-300): builds an empty Section
under the same ownership link and assigns it through __setitem__. -/
def Data.add_section (w : World) (d : DataT) (name : String)
    (type description : PVal) : DataT × Option PyErr :=
  Data.setitem w d name ⟨d.parent, type, description, []⟩

/-- Item.add_data (core.py lines 66-79): writable gate; a None
metadata map is first replaced by an empty dict, then the binding is
assigned.  Assigning into a non-dict value is a Python TypeError. -/
def Item.add_data (w : World) (it : ItemT) (name : String) (value : PVal) :
    ItemT × Option PyErr :=
  if !(w it.parent).writable then (it, some PyErr.notWritable)
  else
    match it.data with
    | PVal.none => ({ it with data := PVal.dict [(name, value)] }, Option.none)
    | PVal.dict l => ({ it with data := PVal.dict (dictInsert l name value) }, Option.none)
    | _ => (it, some PyErr.typeError)

/-- Item.remove_data (core.py lines 81-96): writable gate; the source
then evaluates `name not in self.data` BEFORE its None check, so a None
metadata map raises TypeError (the `self.data is None` test on line 94
is unreachable).  A present key is deleted and an emptied map is reset
to None. -/
def Item.remove_data (w : World) (it : ItemT) (name : String) :
    ItemT × Option PyErr :=
  if !(w it.parent).writable then (it, some PyErr.notWritable)
  else
    match it.data with
    | PVal.dict l =>
        if (alookup l name).isSome then
          let l' := dictRemove l name
          ({ it with data := if l'.isEmpty then PVal.none else PVal.dict l' },
           Option.none)
        else (it, some PyErr.valueError)
    | _ => (it, some PyErr.typeError)

/-- Raw file contents. -/
abbrev Bytes := List Nat

/-- The file-handling state of one BDMFile handle: its mode, the
Resource Index mapping (info.files), the staging directory contents
(internal storage name to bytes), and the entries of the on-disk
container (entry name to bytes), used by pure-read access. -/
structure BDM where
  mode : Mode
  files : List (String × String)
  staging : List (String × Bytes)
  zip : List (String × Bytes)

/-- Extension extraction in add_file (core.py lines 585-586): the text
after the last dot of the source name, with the dot, or empty. -/
def ext_of (name : String) : String :=
  if name.contains '.' then "." ++ (name.splitOn ".").getLastD "" else ""

/-- BDMFile.write_file (core.py lines 618-632): writable gate, then a
lookup of the internal name (KeyError when the id is unregistered) and
a write into the staging directory. -/
def BDM.write_file (b : BDM) (file_id : String) (data : Bytes) :
    BDM × Option PyErr :=
  if !b.mode.writable then (b, some PyErr.notWritable)
  else
    match alookup b.files file_id with
    | Option.none => (b, some (PyErr.keyError file_id))
    | some iname => ({ b with staging := dictInsert b.staging iname data }, Option.none)

/-- BDMFile.add_file (core.py lines 566-592).  The source checks, in
this order: source existence (FileNotFoundError), duplicate external id
(FileExistsError), and only then writability (UnsupportedOperation).
`src` is the content found at the source path (None when the path does
not exist); `fresh` stands for the generated uuid1 hex. -/
def BDM.add_file (b : BDM) (srcName : String) (src : Option Bytes)
    (file_id : String) (internal_name : Option String) (fresh : String) :
    BDM × Option PyErr :=
  match src with
  | Option.none => (b, some PyErr.fileNotFound)
  | some bytes =>
      if (alookup b.files file_id).isSome then (b, some PyErr.fileExists)
      else if !b.mode.writable then (b, some PyErr.notWritable)
      else
        let iname := internal_name.getD (fresh ++ ext_of srcName)
        BDM.write_file { b with files := dictInsert b.files file_id iname }
          file_id bytes

/-- BDMFile.read_file (core.py lines 594-616): in mode "r+" it reads
the staging copy (KeyError for an unregistered id, FileNotFoundError
when the staged file is missing); otherwise, if readable, it extracts
the container entry under the files/ namespace (ZipFile.read raises
KeyError for a missing entry); otherwise UnsupportedOperation. -/
def BDM.read_file (b : BDM) (file_id : String) : Except PyErr Bytes :=
  if b.mode = Mode.rp then
    match alookup b.files file_id with
    | Option.none => .error (PyErr.keyError file_id)
    | some iname =>
        match alookup b.staging iname with
        | Option.none => .error PyErr.fileNotFound
        | some d => .ok d
  else if b.mode.readable then
    match alookup b.files file_id with
    | Option.none => .error (PyErr.keyError file_id)
    | some iname =>
        match alookup b.zip ("files/" ++ iname) with
        | Option.none => .error (PyErr.keyError ("files/" ++ iname))
        | some d => .ok d
  else .error PyErr.notReadable

/-- Item.to_dict (core.py lines 50-64): the four fixed fields in source
order, plus a "data" binding only when the metadata map is not None. -/
def itemEntries (it : ItemT) : List (String × PVal) :=
  [("title", it.title), ("content", it.content),
   ("image_id", it.image_id), ("level", it.level)] ++
    (match it.data with
     | PVal.none => []
     | d => [("data", d)])

/-- Item.to_dict wrapped as a payload value. -/
def Item.to_dict (it : ItemT) : PVal := PVal.dict (itemEntries it)

/-- Section.to_dict (core.py lines 170-183). -/
def sectionEntries (s : SectionT) : List (String × PVal) :=
  [("type", s.type), ("description", s.description),
   ("content", PVal.dict (s.content.map (fun p => (p.1, Item.to_dict p.2))))]

/-- Section.to_dict wrapped as a payload value. -/
def Section.to_dict (s : SectionT) : PVal := PVal.dict (sectionEntries s)

/-- Data.export_data (core.py lines 388-399) with the version tag left
as a parameter: the payload is a dict holding the version tag and the
sections dict.  The source always exports tag VERSION; the parametrised
form states the version-gate property over every embedded tag. -/
def Data.export_with_version (v : Int) (d : DataT) : PVal :=
  PVal.dict [("version", PVal.int v),
             ("sections", PVal.dict (d.sections.map (fun p => (p.1, Section.to_dict p.2))))]

/-- Data.export_data (core.py lines 388-399): DEFAULT is deep-copied,
giving key order version, sections; the sections dict is then filled
from to_dict, and the result is pickled (identity in this model). -/
def Data.export_data (d : DataT) : PVal := Data.export_with_version VERSION d

/-- Parameter names accepted by Item.__init__ via keyword expansion
(everything except the positional-only parent). -/
def allowedItemKeys : List String :=
  ["title", "content", "level", "data", "image_id", "image"]

/-- Item(parent, **item) as executed during deserialization (core.py
line 140): keyword expansion of a dict against the Item signature.
Unknown keys and missing required arguments are TypeErrors; optional
parameters default to None; then the constructor body runs. -/
def Item.from_kwargs (parent : Nat) (kw : List (String × PVal)) :
    Except PyErr ItemT :=
  if kw.all (fun q => allowedItemKeys.contains q.1) then
    match alookup kw "title", alookup kw "content", alookup kw "level" with
    | some t, some c, some l =>
        Item.mk_py parent t c l ((alookup kw "data").getD PVal.none)
          ((alookup kw "image_id").getD PVal.none)
          ((alookup kw "image").getD PVal.none)
    | _, _, _ => .error PyErr.typeError
  else .error PyErr.typeError

/-- The item-building loop of Section.__init__ (core.py lines 137-140):
each value must be a dict usable as keyword arguments, each constructed
Item is assigned into the fresh content dict in iteration order. -/
def buildItems (parent : Nat) (acc : List (String × ItemT)) :
    List (String × PVal) → Except PyErr (List (String × ItemT))
  | [] => .ok acc
  | (k, v) :: rest =>
      match v with
      | PVal.dict kw =>
          match Item.from_kwargs parent kw with
          | .error e => .error e
          | .ok it => buildItems parent (dictInsert acc k it) rest
      | _ => .error PyErr.typeError

/-- Section.__init__ body (core.py lines 123-140) for given keyword
values: the content argument must be a dict, whose entries are built
into Items. -/
def Section.mk_py (parent : Nat) (type description content : PVal) :
    Except PyErr SectionT :=
  match content with
  | PVal.dict entries =>
      match buildItems parent [] entries with
      | .error e => .error e
      | .ok items => .ok ⟨parent, type, description, items⟩
  | _ => .error PyErr.typeError

/-- Section(parent, **section) as executed during deserialization
(core.py line 289): keyword expansion against the Section signature,
whose parameters type, description, content are all required. -/
def Section.from_kwargs (parent : Nat) (kw : List (String × PVal)) :
    Except PyErr SectionT :=
  if kw.all (fun q => (["type", "description", "content"] : List String).contains q.1) then
    match alookup kw "type", alookup kw "description", alookup kw "content" with
    | some t, some de, some c => Section.mk_py parent t de c
    | _, _, _ => .error PyErr.typeError
  else .error PyErr.typeError

/-- The section-building loop of Data.__init__ (core.py lines 277-289). -/
def buildSections (parent : Nat) (acc : List (String × SectionT)) :
    List (String × PVal) → Except PyErr (List (String × SectionT))
  | [] => .ok acc
  | (k, v) :: rest =>
      match v with
      | PVal.dict kw =>
          match Section.from_kwargs parent kw with
          | .error e => .error e
          | .ok s => buildSections parent (dictInsert acc k s) rest
      | _ => .error PyErr.typeError

/-- Data.__init__ applied to the extracted sections value. -/
def Data.mk_py (parent : Nat) (sections : PVal) : Except PyErr DataT :=
  match sections with
  | PVal.dict entries =>
      match buildSections parent [] entries with
      | .error e => .error e
      | .ok l => .ok ⟨parent, l⟩
  | _ => .error PyErr.typeError

/-- Data.import_data (core.py lines 401-422): unpickle (identity on the
payload here), reject non-dict payloads with InvalidFile, reject a
version tag above VERSION with VersionError(VERSION, found), then build
the Data from the "sections" value.  A missing tag is a KeyError and a
non-integer tag makes the comparison a TypeError. -/
def Data.import_data (payload : PVal) (parent : Nat) : Except PyErr DataT :=
  match payload with
  | PVal.dict entries =>
      match alookup entries "version" with
      | Option.none => .error (PyErr.keyError "version")
      | some (PVal.int n) =>
          if n > VERSION then .error (PyErr.versionError VERSION n)
          else
            match alookup entries "sections" with
            | Option.none => .error (PyErr.keyError "sections")
            | some s => Data.mk_py parent s
      | some _ => .error PyErr.typeError
  | _ => .error PyErr.invalidFile

/-- Info.export_data (core.py lines 448-461) with the version tag left
as a parameter; DEFAULT gives key order version, files, name, with the
name updated in place and the files dict filled with stringified
paths. -/
def Info.export_with_version (v : Int) (i : InfoT) : PVal :=
  PVal.dict [("version", PVal.int v),
             ("files", PVal.dict (i.files.map (fun p => (p.1, PVal.str p.2)))),
             ("name", i.name)]

/-- Info.export_data with the supported version tag. -/
def Info.export_data (i : InfoT) : PVal := Info.export_with_version VERSION i

/-- The file-loading loop of Info.__init__ (core.py lines 430-445):
each value is passed through Path(), which requires a string. -/
def buildFiles (acc : List (String × String)) :
    List (String × PVal) → Except PyErr (List (String × String))
  | [] => .ok acc
  | (k, v) :: rest =>
      match v with
      | PVal.str s => buildFiles (dictInsert acc k s) rest
      | _ => .error PyErr.typeError

/-- Info.import_data (core.py lines 463-484): non-dict payloads are
InvalidFile, a version tag above VERSION is VersionError, then
Info(parent, data["name"], data["files"]) runs (name looked up before
files, as Python evaluates arguments left to right). -/
def Info.import_data (payload : PVal) (parent : Nat) : Except PyErr InfoT :=
  match payload with
  | PVal.dict entries =>
      match alookup entries "version" with
      | Option.none => .error (PyErr.keyError "version")
      | some (PVal.int n) =>
          if n > VERSION then .error (PyErr.versionError VERSION n)
          else
            match alookup entries "name" with
            | Option.none => .error (PyErr.keyError "name")
            | some nm =>
                match alookup entries "files" with
                | Option.none => .error (PyErr.keyError "files")
                | some (PVal.dict fentries) =>
                    match buildFiles [] fentries with
                    | .error e => .error e
                    | .ok fl => .ok ⟨parent, nm, fl⟩
                | some _ => .error PyErr.typeError
      | some _ => .error PyErr.typeError
  | _ => .error PyErr.invalidFile

/-- Well-formed Item: the constructor invariant that the resource id is
never None (core.py line 44 enforces it at construction). -/
def ItemWF (it : ItemT) : Prop := it.image_id ≠ PVal.none

/-- Well-formed Section: item keys are unique (they come from a Python
dict) and every item satisfies the Item invariant. -/
def SectionWF (s : SectionT) : Prop :=
  (s.content.map Prod.fst).Nodup ∧ ∀ p ∈ s.content, ItemWF p.2

/-- Well-formed Data: section keys are unique and every section is
well formed. -/
def DataWF (d : DataT) : Prop :=
  (d.sections.map Prod.fst).Nodup ∧ ∀ p ∈ d.sections, SectionWF p.2

/-- Rebuilding a tree under a (possibly different) handle: ownership
links are replaced, every other field is preserved.  Deserialization
produces exactly the reparented tree, which is the structural-equality
statement of the round-trip property. -/
def Item.reparent (p : Nat) (it : ItemT) : ItemT := { it with parent := p }

/-- Section reparenting: same keys in the same order, reparented items. -/
def Section.reparent (p : Nat) (s : SectionT) : SectionT :=
  { s with parent := p,
           content := s.content.map (fun q => (q.1, Item.reparent p q.2)) }

/-- Data reparenting: same keys in the same order, reparented sections. -/
def Data.reparent (p : Nat) (d : DataT) : DataT :=
  ⟨p, d.sections.map (fun q => (q.1, Section.reparent p q.2))⟩

/-- One metadata mutation on an Item, for stating properties of
arbitrary add_data/remove_data call sequences. -/
inductive MetaOp where
  | add : String → PVal → MetaOp
  | remove : String → MetaOp

/-- State reached after one metadata call; a raising call leaves the
item unchanged, exactly as in the source. -/
def applyMetaOp (w : World) (it : ItemT) : MetaOp → ItemT
  | MetaOp.add n v => (Item.add_data w it n v).1
  | MetaOp.remove n => (Item.remove_data w it n).1

/-- The invariant claimed of the metadata map: never an empty dict. -/
def metaInv (it : ItemT) : Prop :=
  it.data = PVal.none ∨ ∃ l, it.data = PVal.dict l ∧ l ≠ []

/-!
The save model.  BDMFile.save (core.py lines 525-564) manipulates two
filesystem locations: the target path and its sibling marker path
(name + ".old").  The container codec is modelled at the level the
spec assigns to it (a random-access archive of named entries): a file
is the previous valid archive, a container that is still missing some
of its entries, or the fully written new archive holding the data
entry, the info entry, and one entry per Resource Index file.

Write-phase micro-steps carry the indices used for failure injection:
0 opening the fresh container, 1 writing the data entry, 2 writing the
info entry, 3+j writing resource file j, and 3+nf removing the old
marker.  An injected failure at a step raises before that step's
effect, and the except branch of save (lines 560-564) then removes the
target if present, renames the marker back, and re-raises.
-/

/-- Contents a file involved in save can hold. -/
inductive FileData where
  | oldArch : FileData
  | draft : FileData
  | newArch : FileData
deriving DecidableEq

/-- The two filesystem locations save touches: the target path and the
".old" marker path (None = no file at that path). -/
structure FS where
  target : Option FileData
  old : Option FileData
deriving DecidableEq

/-- Result of running (part of) save: every filesystem state reached
after an effect, the final state, and the index of the raised failure
if one was injected. -/
structure RunOut where
  states : List FS
  fin : FS
  err : Option Nat
deriving DecidableEq

/-- Runs the container-writing steps of save (core.py lines 545-557):
each list element is a step index plus a flag telling whether that
entry completes the container.  A step whose index matches the
injected failure raises before its effect. -/
def runEntries (failAt : Option Nat) : List (Nat × Bool) → FS → RunOut
  | [], fs => ⟨[], fs, Option.none⟩
  | (i, c) :: rest, fs =>
      if failAt = some i then ⟨[], fs, some i⟩
      else
        let fs' : FS :=
          { fs with target := some (if c then FileData.newArch else FileData.draft) }
        let r := runEntries failAt rest fs'
        ⟨fs' :: r.states, r.fin, r.err⟩

/-- The entry-writing steps for a save with nf resource files: open the
container (index 0, core.py line 545), write the data entry (index 1,
line 548), write the info entry (index 2, line 551, completing the
container when there are no files), then one step per resource file
(indices 3..2+nf, line 557, the last completing the container). -/
def entrySteps (nf : Nat) : List (Nat × Bool) :=
  (0, false) :: (1, false) :: (2, nf == 0) ::
    (List.range nf).map (fun j => (3 + j, j + 1 == nf))

/-- The old-marker removal (core.py line 559): executed only when a
marker was created, with step index 3+nf. -/
def removeOld (failAt : Option Nat) (nf : Nat) (oldVar : Option FileData)
    (fs : FS) : RunOut :=
  match oldVar with
  | Option.none => ⟨[], fs, Option.none⟩
  | some _ =>
      if failAt = some (3 + nf) then ⟨[], fs, some (3 + nf)⟩
      else ⟨[{ fs with old := Option.none }], { fs with old := Option.none },
            Option.none⟩

/-- The except branch of save (core.py lines 560-564): remove the
target path if a file is there, and when a marker was renamed aside,
rename it back to the target.  Returns the intermediate states and the
restored state. -/
def handler (oldVar : Option FileData) (fs : FS) : List FS × FS :=
  let fs1 : FS := { fs with target := Option.none }
  match oldVar with
  | some c => ([fs1, ⟨some c, Option.none⟩], ⟨some c, Option.none⟩)
  | Option.none => ([fs1], fs1)

/-- BDMFile.save on a writable handle (core.py lines 525-564), with nf
resource files registered in the Resource Index and an optional
injected failure.  First the rename-aside of an existing target file
(line 541), then the write phase, then either the marker removal or the
except branch, re-raising the injected error. -/
def save (nf : Nat) (failAt : Option Nat) (fs0 : FS) : RunOut :=
  let p : FS × Option FileData :=
    match fs0.target with
    | some c => (⟨Option.none, some c⟩, some c)
    | Option.none => (fs0, Option.none)
  let fs1 := p.1
  let oldVar := p.2
  let pre : List FS :=
    match fs0.target with
    | some _ => [fs1]
    | Option.none => []
  let r1 := runEntries failAt (entrySteps nf) fs1
  match r1.err with
  | some k =>
      let h := handler oldVar r1.fin
      ⟨fs0 :: pre ++ r1.states ++ h.1, h.2, some k⟩
  | Option.none =>
      let r2 := removeOld failAt nf oldVar r1.fin
      match r2.err with
      | some k =>
          let h := handler oldVar r2.fin
          ⟨fs0 :: pre ++ r1.states ++ r2.states ++ h.1, h.2, some k⟩
      | Option.none => ⟨fs0 :: pre ++ r1.states ++ r2.states, r2.fin, Option.none⟩

/-- The initial filesystem of the atomic-save claims: the target path
holds the previously valid archive and no stale marker file exists. -/
def initFS : FS := ⟨some FileData.oldArch, Option.none⟩

/-- The target-path condition asserted by the atomicity claim: at every
instant the target path holds the previous archive, holds the new
fully written archive, or holds nothing. -/
def targetIntact (s : FS) : Prop :=
  s.target = some FileData.oldArch ∨ s.target = some FileData.newArch ∨
    s.target = Option.none

/-- The atomicity claim as stated: every state in the trace of any save
run from a previously valid archive satisfies targetIntact. -/
def claimC1 : Prop :=
  ∀ (nf : Nat) (failAt : Option Nat) (s : FS),
    s ∈ (save nf failAt initFS).states → targetIntact s

/-!
Lemmas about the dict model, then the claim theorems.
-/

theorem alookup_dictInsert_self {α : Type} (l : List (String × α)) (k : String) (v : α) :
    alookup (dictInsert l k v) k = some v := by
  induction l with
  | nil => simp [dictInsert, alookup]
  | cons p t ih =>
      by_cases h : p.1 = k
      · simp [dictInsert, alookup, h]
      · simpa [dictInsert, alookup, h] using ih

theorem alookup_dictInsert_ne {α : Type} (l : List (String × α)) (k k' : String) (v : α)
    (h : k' ≠ k) : alookup (dictInsert l k v) k' = alookup l k' := by
  induction l with
  | nil => simp [dictInsert, alookup, Ne.symm h]
  | cons p t ih =>
      by_cases hp : p.1 = k
      · subst hp
        simp [dictInsert, alookup, Ne.symm h]
      · simp only [dictInsert, if_neg hp]
        by_cases hp' : p.1 = k'
        · simp [alookup, hp']
        · simpa [alookup, hp'] using ih

theorem dictInsert_keys_of_mem {α : Type} (l : List (String × α)) (k : String) (v : α)
    (h : (alookup l k).isSome = true) :
    (dictInsert l k v).map Prod.fst = l.map Prod.fst := by
  induction l with
  | nil => simp [alookup] at h
  | cons p t ih =>
      by_cases hp : p.1 = k
      · simp [dictInsert, hp]
      · simp only [alookup, if_neg hp] at h
        simp [dictInsert, hp, ih h]

theorem dictInsert_append_of_not_mem {α : Type} (l : List (String × α)) (k : String) (v : α)
    (h : k ∉ l.map Prod.fst) : dictInsert l k v = l ++ [(k, v)] := by
  induction l with
  | nil => simp [dictInsert]
  | cons p t ih =>
      simp only [List.map_cons, List.mem_cons] at h
      push_neg at h
      simp [dictInsert, Ne.symm h.1, ih h.2]

theorem dictInsert_ne_nil {α : Type} (l : List (String × α)) (k : String) (v : α) :
    dictInsert l k v ≠ [] := by
  cases l with
  | nil => simp [dictInsert]
  | cons p t =>
      by_cases hp : p.1 = k <;> simp [dictInsert, hp]

/-- Claim C5: inserting an Item whose ownership link refers to a
different archive handle into a writable Section fails with
InvalidParent (OwnershipMismatch) carrying the expected and given
links, and the section state is returned unchanged; the same rejection
applies to inserting a foreign Section into a Data document. -/
theorem c5_ownership_gate :
    (∀ (w : World) (s : SectionT) (k : String) (v : ItemT),
        (w s.parent).writable = true → v.parent ≠ s.parent →
        Section.setitem w s k v =
          (s, some (PyErr.invalidParent s.parent v.parent))) ∧
    (∀ (w : World) (d : DataT) (k : String) (v : SectionT),
        (w d.parent).writable = true → v.parent ≠ d.parent →
        Data.setitem w d k v =
          (d, some (PyErr.invalidParent d.parent v.parent))) := by
  constructor
  · intro w s k v hw hp
    simp [Section.setitem, hw, hp]
  · intro w d k v hw hp
    simp [Data.setitem, hw, hp]

/-- Witness for C5 at a concrete input: a section owned by handle 0 on
a read-write world rejects an item owned by handle 1. -/
theorem c5_ownership_gate_witness :
    Section.setitem (fun _ => Mode.rp) ⟨0, PVal.none, PVal.none, []⟩ "k"
        ⟨1, PVal.none, PVal.none, PVal.str "i", PVal.int 0, PVal.none⟩ =
      (⟨0, PVal.none, PVal.none, []⟩, some (PyErr.invalidParent 0 1)) ∧
    Data.setitem (fun _ => Mode.rp) ⟨0, []⟩ "k" ⟨1, PVal.none, PVal.none, []⟩ =
      (⟨0, []⟩, some (PyErr.invalidParent 0 1)) :=
  ⟨c5_ownership_gate.1 _ _ _ _ rfl (by decide),
   c5_ownership_gate.2 _ _ _ _ rfl (by decide)⟩

/-- Claim C7, the add_item argument defect evaluated on the code: on a
writable section, add_item("Title", "Content", "img1", 1) with the
default metadata raises ValueError instead of inserting an item
(first conjunct), because the positional constructor call binds the
arguments to the wrong parameters; and when a metadata argument is
supplied, the inserted item carries image_id := the metadata argument,
level := the image_id argument, and data := the level argument
(second conjunct), not the fields the claim states. -/
theorem c7_add_item_defect :
    Section.add_item (fun _ => Mode.rp) ⟨0, PVal.str "t", PVal.str "d", []⟩
        (PVal.str "Title") (PVal.str "Content") (PVal.str "img1") (PVal.int 1)
        (some "k") PVal.none "fresh" =
      (⟨0, PVal.str "t", PVal.str "d", []⟩, some PyErr.valueError) ∧
    (Section.add_item (fun _ => Mode.rp) ⟨0, PVal.str "t", PVal.str "d", []⟩
        (PVal.str "Title") (PVal.str "Content") (PVal.str "img1") (PVal.int 1)
        (some "k") (PVal.dict []) "fresh").1.content =
      [("k", ⟨0, PVal.str "Title", PVal.str "Content", PVal.dict [],
              PVal.str "img1", PVal.int 1⟩)] :=
  ⟨rfl, rfl⟩

/-- Metadata invariant preservation by a single call: any add_data or
remove_data call, successful or raising (a raising call leaves the item
unchanged), keeps the metadata map None or non-empty. -/
theorem metaInv_applyMetaOp (w : World) (it : ItemT) (op : MetaOp)
    (h : metaInv it) : metaInv (applyMetaOp w it op) := by
  cases op with
  | add n v =>
      by_cases hw : (w it.parent).writable
      · rcases h with h | ⟨l, hl, hne⟩
        · simp only [applyMetaOp, Item.add_data, hw, h]
          exact Or.inr ⟨[(n, v)], rfl, by simp⟩
        · simp only [applyMetaOp, Item.add_data, hw, hl]
          exact Or.inr ⟨dictInsert l n v, rfl, dictInsert_ne_nil l n v⟩
      · simp only [Bool.not_eq_true] at hw
        simpa [applyMetaOp, Item.add_data, hw] using h
  | remove n =>
      by_cases hw : (w it.parent).writable
      · rcases h with h | ⟨l, hl, hne⟩
        · have hu : applyMetaOp w it (MetaOp.remove n) = it := by
            simp [applyMetaOp, Item.remove_data, hw, h]
          rw [hu]
          exact Or.inl h
        · by_cases hm : (alookup l n).isSome
          · by_cases he : (dictRemove l n).isEmpty
            · simp only [applyMetaOp, Item.remove_data, hw, hl, hm, if_pos he]
              exact Or.inl rfl
            · simp only [applyMetaOp, Item.remove_data, hw, hl, hm, if_neg he]
              exact Or.inr ⟨dictRemove l n, rfl, by
                simpa [List.isEmpty_iff] using he⟩
          · simp only [Bool.not_eq_true] at hm
            simp only [applyMetaOp, Item.remove_data, hw, hl, hm]
            exact Or.inr ⟨l, hl, hne⟩
      · simp only [Bool.not_eq_true] at hw
        simpa [applyMetaOp, Item.remove_data, hw] using h

/-- Metadata invariant preservation by a call sequence. -/
theorem metaInv_foldl (w : World) (ops : List MetaOp) (it : ItemT)
    (h : metaInv it) : metaInv (ops.foldl (applyMetaOp w) it) := by
  induction ops generalizing it with
  | nil => simpa using h
  | cons op rest ih =>
      exact ih (applyMetaOp w it op) (metaInv_applyMetaOp w it op h)

/-- Claim C10: starting from an Item whose metadata is None, any
sequence of add_data and remove_data calls leaves the metadata map
either None or a non-empty mapping — add_data creates the map on first
use, and remove_data resets an emptied map to None. -/
theorem c10_metadata_invariant (w : World) (parent : Nat)
    (title content image_id level : PVal) (ops : List MetaOp) :
    metaInv (ops.foldl (applyMetaOp w)
      ⟨parent, title, content, image_id, level, PVal.none⟩) :=
  metaInv_foldl w ops _ (Or.inl rfl)

/-- Counterexample to claim C6 as stated: add_file on a read-only
handle, called with a source path that does not exist, fails with
FileNotFoundError, not with PermissionDenied — the source checks the
path and the duplicate id before checking writability (core.py lines
581-583), so the writable check is not made first. -/
theorem c6_counterexample :
    (BDM.add_file ⟨Mode.r, [], [], []⟩ "a.png" Option.none "id"
        Option.none "u").2 = some PyErr.fileNotFound ∧
    PyErr.fileNotFound ≠ PyErr.notWritable :=
  ⟨rfl, by decide⟩

/-- Claim C6 amended: every mutating operation on a read-only handle
raises and leaves the state unchanged; the raised error is
PermissionDenied (UnsupportedOperation) whenever the operation's own
argument validation does not raise first — add_file checks source
existence and duplicate id before writability, add_item first runs the
(defective) Item constructor, and remove_item first tests membership. -/
theorem c6_amended :
    (∀ (b : BDM) (srcName : String) (src : Option Bytes) (fid : String)
        (iname : Option String) (fresh : String), b.mode = Mode.r →
        (BDM.add_file b srcName src fid iname fresh).1 = b ∧
        (BDM.add_file b srcName src fid iname fresh).2.isSome = true ∧
        (∀ bs, src = some bs → alookup b.files fid = Option.none →
          (BDM.add_file b srcName src fid iname fresh).2 =
            some PyErr.notWritable)) ∧
    (∀ (b : BDM) (fid : String) (d : Bytes), b.mode = Mode.r →
        BDM.write_file b fid d = (b, some PyErr.notWritable)) ∧
    (∀ (w : World) (s : SectionT) (t c iid lv : PVal) (nm : Option String)
        (dat : PVal) (fresh : String), w s.parent = Mode.r →
        (Section.add_item w s t c iid lv nm dat fresh).1 = s ∧
        (Section.add_item w s t c iid lv nm dat fresh).2.isSome = true ∧
        (dat ≠ PVal.none →
          (Section.add_item w s t c iid lv nm dat fresh).2 =
            some PyErr.notWritable)) ∧
    (∀ (w : World) (s : SectionT) (nm : String), w s.parent = Mode.r →
        (Section.remove_item w s nm).1 = s ∧
        (Section.remove_item w s nm).2.isSome = true ∧
        ((alookup s.content nm).isSome = true →
          (Section.remove_item w s nm).2 = some PyErr.notWritable)) ∧
    (∀ (w : World) (d : DataT) (nm : String) (ty de : PVal),
        w d.parent = Mode.r →
        Data.add_section w d nm ty de = (d, some PyErr.notWritable)) ∧
    (∀ (w : World) (it : ItemT) (nm : String) (v : PVal),
        w it.parent = Mode.r →
        Item.add_data w it nm v = (it, some PyErr.notWritable)) ∧
    (∀ (w : World) (it : ItemT) (nm : String), w it.parent = Mode.r →
        Item.remove_data w it nm = (it, some PyErr.notWritable)) := by
  refine ⟨?_, ?_, ?_, ?_, ?_, ?_, ?_⟩
  · intro b srcName src fid iname fresh hb
    cases src with
    | none =>
        exact ⟨rfl, rfl, fun bs h => by cases h⟩
    | some bytes =>
        by_cases hd : (alookup b.files fid).isSome
        · refine ⟨?_, ?_, ?_⟩
          · simp [BDM.add_file, hd]
          · simp [BDM.add_file, hd]
          · intro bs _ hreg
            rw [hreg] at hd
            simp at hd
        · have hwr : b.mode.writable = false := by rw [hb]; rfl
          refine ⟨?_, ?_, ?_⟩
          · simp [BDM.add_file, hd, hwr]
          · simp [BDM.add_file, hd, hwr]
          · intro bs _ _
            simp [BDM.add_file, hd, hwr]
  · intro b fid d hb
    have hwr : b.mode.writable = false := by rw [hb]; rfl
    simp [BDM.write_file, hwr]
  · intro w s t c iid lv nm dat fresh hw
    have hwr : (w s.parent).writable = false := by rw [hw]; rfl
    have key : ∀ dd : PVal, dd ≠ PVal.none →
        Section.add_item w s t c iid lv nm dd fresh =
          (s, some PyErr.notWritable) := by
      intro dd hdd
      cases dd with
      | none => exact absurd rfl hdd
      | int n => simp [Section.add_item, Item.mk_py, Section.setitem, hwr]
      | str a => simp [Section.add_item, Item.mk_py, Section.setitem, hwr]
      | dict l => simp [Section.add_item, Item.mk_py, Section.setitem, hwr]
    cases dat with
    | none => exact ⟨rfl, rfl, fun h => absurd rfl h⟩
    | int n =>
        have k := key (PVal.int n) (by simp)
        exact ⟨by rw [k], by rw [k]; rfl, fun _ => by rw [k]⟩
    | str a =>
        have k := key (PVal.str a) (by simp)
        exact ⟨by rw [k], by rw [k]; rfl, fun _ => by rw [k]⟩
    | dict l =>
        have k := key (PVal.dict l) (by simp)
        exact ⟨by rw [k], by rw [k]; rfl, fun _ => by rw [k]⟩
  · intro w s nm hw
    have hrd : (w s.parent).readable = true := by rw [hw]; rfl
    have hwr : (w s.parent).writable = false := by rw [hw]; rfl
    by_cases hm : (alookup s.content nm).isSome
    · refine ⟨?_, ?_, fun _ => ?_⟩ <;>
        simp [Section.remove_item, Section.contains, Section.delitem,
          hrd, hwr, hm]
    · refine ⟨?_, ?_, fun hms => absurd hms hm⟩ <;>
        simp [Section.remove_item, Section.contains, Section.delitem,
          hrd, hwr, hm]
  · intro w d nm ty de hw
    have hwr : (w d.parent).writable = false := by rw [hw]; rfl
    simp [Data.add_section, Data.setitem, hwr]
  · intro w it nm v hw
    have hwr : (w it.parent).writable = false := by rw [hw]; rfl
    simp [Item.add_data, hwr]
  · intro w it nm hw
    have hwr : (w it.parent).writable = false := by rw [hw]; rfl
    simp [Item.remove_data, hwr]

/-- Witness for the amended C6 at concrete read-only handles. -/
theorem c6_amended_witness :
    (BDM.add_file ⟨Mode.r, [], [], []⟩ "a.png" (some [1]) "id"
        Option.none "u").2 = some PyErr.notWritable ∧
    BDM.write_file ⟨Mode.r, [("id", "f")], [], []⟩ "id" [1] =
      (⟨Mode.r, [("id", "f")], [], []⟩, some PyErr.notWritable) ∧
    (Section.add_item (fun _ => Mode.r) ⟨0, PVal.none, PVal.none, []⟩
        (PVal.str "t") (PVal.str "c") (PVal.str "i") (PVal.int 1)
        (some "k") (PVal.dict []) "f").2 = some PyErr.notWritable ∧
    (Section.remove_item (fun _ => Mode.r)
        ⟨0, PVal.none, PVal.none,
         [("k", ⟨0, PVal.none, PVal.none, PVal.str "i", PVal.int 0,
                 PVal.none⟩)]⟩ "k").2 = some PyErr.notWritable ∧
    Data.add_section (fun _ => Mode.r) ⟨0, []⟩ "s" PVal.none PVal.none =
      (⟨0, []⟩, some PyErr.notWritable) ∧
    Item.add_data (fun _ => Mode.r)
        ⟨0, PVal.none, PVal.none, PVal.str "i", PVal.int 0, PVal.none⟩
        "k" (PVal.int 1) =
      (⟨0, PVal.none, PVal.none, PVal.str "i", PVal.int 0, PVal.none⟩,
       some PyErr.notWritable) ∧
    Item.remove_data (fun _ => Mode.r)
        ⟨0, PVal.none, PVal.none, PVal.str "i", PVal.int 0, PVal.none⟩
        "k" =
      (⟨0, PVal.none, PVal.none, PVal.str "i", PVal.int 0, PVal.none⟩,
       some PyErr.notWritable) :=
  ⟨((c6_amended.1 ⟨Mode.r, [], [], []⟩ "a.png" (some [1]) "id"
      Option.none "u" rfl).2.2 [1] rfl rfl),
   c6_amended.2.1 _ "id" [1] rfl,
   ((c6_amended.2.2.1 (fun _ => Mode.r) ⟨0, PVal.none, PVal.none, []⟩
      (PVal.str "t") (PVal.str "c") (PVal.str "i") (PVal.int 1)
      (some "k") (PVal.dict []) "f" rfl).2.2 (by simp)),
   ((c6_amended.2.2.2.1 (fun _ => Mode.r)
      ⟨0, PVal.none, PVal.none,
       [("k", ⟨0, PVal.none, PVal.none, PVal.str "i", PVal.int 0,
               PVal.none⟩)]⟩ "k" rfl).2.2 (by simp [alookup])),
   c6_amended.2.2.2.2.1 (fun _ => Mode.r) ⟨0, []⟩ "s" PVal.none PVal.none rfl,
   c6_amended.2.2.2.2.2.1 (fun _ => Mode.r) _ "k" (PVal.int 1) rfl,
   c6_amended.2.2.2.2.2.2 (fun _ => Mode.r) _ "k" rfl⟩

/-- Claim C8: read_file on a handle in mode "r+" returns the staged
copy of the resource (and in particular reflects an uncommitted
write_file); in pure-read mode it returns the corresponding container
entry; a non-readable handle gets UnsupportedOperation; a readable
handle with an unregistered external id gets the lookup failure
(KeyError, the NotFound of the taxonomy) from the Resource Index. -/
theorem c8_read_file :
    (∀ (b : BDM) (fid n : String) (d : Bytes), b.mode = Mode.rp →
        alookup b.files fid = some n → alookup b.staging n = some d →
        BDM.read_file b fid = Except.ok d) ∧
    (∀ (b : BDM) (fid : String) (bs : Bytes), b.mode = Mode.rp →
        (alookup b.files fid).isSome = true →
        BDM.read_file (BDM.write_file b fid bs).1 fid = Except.ok bs) ∧
    (∀ (b : BDM) (fid n : String) (d : Bytes), b.mode = Mode.r →
        alookup b.files fid = some n →
        alookup b.zip ("files/" ++ n) = some d →
        BDM.read_file b fid = Except.ok d) ∧
    (∀ (b : BDM) (fid : String), b.mode.readable = false →
        BDM.read_file b fid = Except.error PyErr.notReadable) ∧
    (∀ (b : BDM) (fid : String), b.mode.readable = true →
        alookup b.files fid = Option.none →
        BDM.read_file b fid = Except.error (PyErr.keyError fid)) := by
  refine ⟨?_, ?_, ?_, ?_, ?_⟩
  · intro b fid n d hb hf hs
    simp [BDM.read_file, hb, hf, hs]
  · intro b fid bs hb hreg
    obtain ⟨n, hn⟩ := Option.isSome_iff_exists.mp hreg
    have hwf : BDM.write_file b fid bs =
        ({ b with staging := dictInsert b.staging n bs }, Option.none) := by
      have hwr : b.mode.writable = true := by rw [hb]; rfl
      simp [BDM.write_file, hwr, hn]
    rw [hwf]
    simp [BDM.read_file, hb, hn, alookup_dictInsert_self]
  · intro b fid n d hb hf hz
    have hne : b.mode ≠ Mode.rp := by rw [hb]; decide
    simp [BDM.read_file, hne, hb, hf, hz, Mode.readable]
  · intro b fid hnr
    cases hm : b.mode with
    | r => rw [hm] at hnr; cases hnr
    | w => simp [BDM.read_file, hm, Mode.readable]
    | rp => rw [hm] at hnr; cases hnr
  · intro b fid hrd hreg
    cases hm : b.mode with
    | r => simp [BDM.read_file, hm, Mode.readable, hreg]
    | w => rw [hm] at hrd; cases hrd
    | rp => simp [BDM.read_file, hm, hreg]

/-- Witness for C8 at concrete handles: a staged read in mode "r+", a
read after an uncommitted write, a container read in mode "r", the
non-readable failure in mode "w", and the unregistered-id failure. -/
theorem c8_read_file_witness :
    BDM.read_file ⟨Mode.rp, [("id", "f1")], [("f1", [7])], []⟩ "id" =
      Except.ok [7] ∧
    BDM.read_file
        (BDM.write_file ⟨Mode.rp, [("id", "f1")], [("f1", [7])], []⟩
          "id" [9]).1 "id" = Except.ok [9] ∧
    BDM.read_file ⟨Mode.r, [("id", "f1")], [], [("files/f1", [5])]⟩ "id" =
      Except.ok [5] ∧
    BDM.read_file ⟨Mode.w, [("id", "f1")], [], []⟩ "id" =
      Except.error PyErr.notReadable ∧
    BDM.read_file ⟨Mode.r, [], [], []⟩ "nope" =
      Except.error (PyErr.keyError "nope") :=
  ⟨c8_read_file.1 _ "id" "f1" [7] rfl (by simp [alookup]) (by simp [alookup]),
   c8_read_file.2.1 _ "id" [9] rfl (by simp [alookup]),
   c8_read_file.2.2.1 _ "id" "f1" [5] rfl (by simp [alookup])
     (by simp [alookup]),
   c8_read_file.2.2.2.1 _ "id" rfl,
   c8_read_file.2.2.2.2 ⟨Mode.r, [], [], []⟩ "nope" rfl rfl⟩

/-- Counterexample to claim C9 as stated: on a writable section that
already holds key "k", add_item with explicit name "k" and the default
metadata None raises ValueError (through the defective positional
constructor call) instead of raising no error. -/
theorem c9_counterexample :
    (Section.add_item (fun _ => Mode.rp)
        ⟨0, PVal.none, PVal.none,
         [("k", ⟨0, PVal.none, PVal.none, PVal.str "i", PVal.int 0,
                 PVal.none⟩)]⟩
        (PVal.str "t") (PVal.str "c") (PVal.str "i") (PVal.int 1)
        (some "k") PVal.none "f").2 = some PyErr.valueError ∧
    some PyErr.valueError ≠ (Option.none : Option PyErr) :=
  ⟨rfl, by decide⟩

/-- Claim C9 amended: insertion under an already-present key via
__setitem__ (Section or Data) or add_section raises no error and
silently replaces the stored entry, preserving key order and the other
bindings; add_item with an explicit duplicate name likewise replaces
without error provided its metadata argument is not None (with None
metadata every add_item call raises ValueError through the
constructor-argument defect, for fresh keys as well); duplicate-key
rejection exists only for external file ids in add_file. -/
theorem c9_amended :
    (∀ (w : World) (s : SectionT) (k : String) (v : ItemT),
        (w s.parent).writable = true → v.parent = s.parent →
        (alookup s.content k).isSome = true →
        (Section.setitem w s k v).2 = Option.none ∧
        alookup (Section.setitem w s k v).1.content k = some v ∧
        (Section.setitem w s k v).1.content.map Prod.fst =
          s.content.map Prod.fst ∧
        (∀ k2, k2 ≠ k → alookup (Section.setitem w s k v).1.content k2 =
          alookup s.content k2)) ∧
    (∀ (w : World) (d : DataT) (k : String) (v : SectionT),
        (w d.parent).writable = true → v.parent = d.parent →
        (alookup d.sections k).isSome = true →
        (Data.setitem w d k v).2 = Option.none ∧
        alookup (Data.setitem w d k v).1.sections k = some v ∧
        (Data.setitem w d k v).1.sections.map Prod.fst =
          d.sections.map Prod.fst) ∧
    (∀ (w : World) (d : DataT) (nm : String) (ty de : PVal),
        (w d.parent).writable = true →
        (alookup d.sections nm).isSome = true →
        (Data.add_section w d nm ty de).2 = Option.none ∧
        alookup (Data.add_section w d nm ty de).1.sections nm =
          some ⟨d.parent, ty, de, []⟩ ∧
        (Data.add_section w d nm ty de).1.sections.map Prod.fst =
          d.sections.map Prod.fst) ∧
    (∀ (w : World) (s : SectionT) (t c iid lv dat : PVal) (nm fresh : String),
        (w s.parent).writable = true → dat ≠ PVal.none →
        (alookup s.content nm).isSome = true →
        (Section.add_item w s t c iid lv (some nm) dat fresh).2 =
          Option.none ∧
        alookup (Section.add_item w s t c iid lv (some nm) dat
            fresh).1.content nm = some ⟨s.parent, t, c, dat, iid, lv⟩ ∧
        (Section.add_item w s t c iid lv (some nm) dat
            fresh).1.content.map Prod.fst = s.content.map Prod.fst) ∧
    (∀ (b : BDM) (srcName : String) (bs : Bytes) (fid : String)
        (iname : Option String) (fresh : String),
        (alookup b.files fid).isSome = true →
        BDM.add_file b srcName (some bs) fid iname fresh =
          (b, some PyErr.fileExists)) := by
  refine ⟨?_, ?_, ?_, ?_, ?_⟩
  · intro w s k v hw hp hm
    refine ⟨?_, ?_, ?_, ?_⟩
    · simp [Section.setitem, hw, hp]
    · simp [Section.setitem, hw, hp, alookup_dictInsert_self]
    · simp [Section.setitem, hw, hp, dictInsert_keys_of_mem _ _ _ hm]
    · intro k2 hk2
      simp [Section.setitem, hw, hp, alookup_dictInsert_ne _ _ _ _ hk2]
  · intro w d k v hw hp hm
    refine ⟨?_, ?_, ?_⟩
    · simp [Data.setitem, hw, hp]
    · simp [Data.setitem, hw, hp, alookup_dictInsert_self]
    · simp [Data.setitem, hw, hp, dictInsert_keys_of_mem _ _ _ hm]
  · intro w d nm ty de hw hm
    refine ⟨?_, ?_, ?_⟩
    · simp [Data.add_section, Data.setitem, hw]
    · simp [Data.add_section, Data.setitem, hw, alookup_dictInsert_self]
    · simp [Data.add_section, Data.setitem, hw,
        dictInsert_keys_of_mem _ _ _ hm]
  · intro w s t c iid lv dat nm fresh hw hdat hm
    have key : Section.add_item w s t c iid lv (some nm) dat fresh =
        Section.setitem w s nm ⟨s.parent, t, c, dat, iid, lv⟩ := by
      cases dat with
      | none => exact absurd rfl hdat
      | int n => simp [Section.add_item, Item.mk_py]
      | str a => simp [Section.add_item, Item.mk_py]
      | dict l => simp [Section.add_item, Item.mk_py]
    rw [key]
    refine ⟨?_, ?_, ?_⟩
    · simp [Section.setitem, hw]
    · simp [Section.setitem, hw, alookup_dictInsert_self]
    · simp [Section.setitem, hw, dictInsert_keys_of_mem _ _ _ hm]
  · intro b srcName bs fid iname fresh hm
    simp [BDM.add_file, hm]

/-- Witness for the amended C9 at concrete duplicate keys. -/
theorem c9_amended_witness :
    (Section.setitem (fun _ => Mode.rp)
        ⟨0, PVal.none, PVal.none,
         [("k", ⟨0, PVal.none, PVal.none, PVal.str "i", PVal.int 0,
                 PVal.none⟩)]⟩ "k"
        ⟨0, PVal.str "t2", PVal.none, PVal.str "j", PVal.int 1,
         PVal.none⟩).2 = Option.none ∧
    (Data.add_section (fun _ => Mode.rp)
        ⟨0, [("s", ⟨0, PVal.none, PVal.none, []⟩)]⟩ "s"
        (PVal.str "ty") (PVal.str "de")).2 = Option.none ∧
    (Section.add_item (fun _ => Mode.rp)
        ⟨0, PVal.none, PVal.none,
         [("k", ⟨0, PVal.none, PVal.none, PVal.str "i", PVal.int 0,
                 PVal.none⟩)]⟩
        (PVal.str "t") (PVal.str "c") (PVal.str "i") (PVal.int 1)
        (some "k") (PVal.dict []) "f").2 = Option.none ∧
    BDM.add_file ⟨Mode.rp, [("id", "f1")], [], []⟩ "a.png" (some [1])
        "id" Option.none "u" =
      (⟨Mode.rp, [("id", "f1")], [], []⟩, some PyErr.fileExists) :=
  ⟨(c9_amended.1 (fun _ => Mode.rp) _ "k"
      ⟨0, PVal.str "t2", PVal.none, PVal.str "j", PVal.int 1, PVal.none⟩
      rfl rfl (by simp [alookup])).1,
   (c9_amended.2.2.1 (fun _ => Mode.rp)
      ⟨0, [("s", ⟨0, PVal.none, PVal.none, []⟩)]⟩ "s"
      (PVal.str "ty") (PVal.str "de") rfl (by simp [alookup])).1,
   (c9_amended.2.2.2.1 (fun _ => Mode.rp) _
      (PVal.str "t") (PVal.str "c") (PVal.str "i") (PVal.int 1)
      (PVal.dict []) "k" "f" rfl (by simp) (by simp [alookup])).1,
   c9_amended.2.2.2.2 ⟨Mode.rp, [("id", "f1")], [], []⟩ "a.png" [1] "id"
      Option.none "u" (by simp [alookup])⟩

/-- Round trip of a single Item: keyword expansion of its to_dict
entries rebuilds an equal item (up to the new ownership link), given
the constructor invariant that the resource id is not None. -/
theorem item_roundtrip (p : Nat) (it : ItemT) (h : ItemWF it) :
    Item.from_kwargs p (itemEntries it) = Except.ok (Item.reparent p it) := by
  cases hi : it.image_id with
  | none => exact absurd hi h
  | int n =>
      cases hd : it.data <;>
        simp [itemEntries, hd, hi, Item.from_kwargs, allowedItemKeys,
          alookup, Item.mk_py, Item.reparent]
  | str a =>
      cases hd : it.data <;>
        simp [itemEntries, hd, hi, Item.from_kwargs, allowedItemKeys,
          alookup, Item.mk_py, Item.reparent]
  | dict l =>
      cases hd : it.data <;>
        simp [itemEntries, hd, hi, Item.from_kwargs, allowedItemKeys,
          alookup, Item.mk_py, Item.reparent]

/-- Round trip of the item-building loop: rebuilding exported items
appends their reparented forms to the accumulator, provided keys are
unique and disjoint from the accumulator. -/
theorem buildItems_roundtrip (p : Nat) :
    ∀ (l : List (String × ItemT)) (acc : List (String × ItemT)),
      (∀ q ∈ l, ItemWF q.2) → (l.map Prod.fst).Nodup →
      (∀ k ∈ l.map Prod.fst, k ∉ acc.map Prod.fst) →
      buildItems p acc (l.map (fun q => (q.1, Item.to_dict q.2))) =
        Except.ok (acc ++ l.map (fun q => (q.1, Item.reparent p q.2))) := by
  intro l
  induction l with
  | nil => intro acc _ _ _; simp [buildItems]
  | cons q rest ih =>
      intro acc hwf hnd hdisj
      obtain ⟨k, it⟩ := q
      have hwfit : ItemWF it := hwf (k, it) (List.mem_cons_self _ _)
      have hk : k ∉ acc.map Prod.fst := hdisj k (by simp)
      have step : buildItems p acc
          (((k, it) :: rest).map (fun q => (q.1, Item.to_dict q.2))) =
          buildItems p (dictInsert acc k (Item.reparent p it))
            (rest.map (fun q => (q.1, Item.to_dict q.2))) := by
        simp only [List.map_cons, Item.to_dict, buildItems,
          item_roundtrip p it hwfit]
      rw [step, dictInsert_append_of_not_mem _ _ _ hk]
      have hnd' : (rest.map Prod.fst).Nodup := by
        simp only [List.map_cons] at hnd
        exact hnd.of_cons
      have hkrest : k ∉ rest.map Prod.fst := by
        simp only [List.map_cons] at hnd
        exact (List.nodup_cons.mp hnd).1
      have hdisj' : ∀ k2 ∈ rest.map Prod.fst,
          k2 ∉ (acc ++ [(k, Item.reparent p it)]).map Prod.fst := by
        intro k2 hk2
        simp only [List.map_append, List.mem_append, List.map_cons,
          List.map_nil, List.mem_singleton]
        rintro (h1 | h2)
        · exact hdisj k2 (by simp [hk2]) h1
        · subst h2
          exact hkrest hk2
      rw [ih (acc ++ [(k, Item.reparent p it)])
        (fun q hq => hwf q (List.mem_cons_of_mem _ hq)) hnd' hdisj']
      simp

/-- Round trip of a single Section through its to_dict entries. -/
theorem section_roundtrip (p : Nat) (s : SectionT) (h : SectionWF s) :
    Section.from_kwargs p (sectionEntries s) =
      Except.ok (Section.reparent p s) := by
  obtain ⟨hnd, hwf⟩ := h
  have hb := buildItems_roundtrip p s.content [] hwf hnd (by simp)
  simp only [List.nil_append] at hb
  simp [sectionEntries, Section.from_kwargs, Section.mk_py, alookup, hb,
    Section.reparent]

/-- Round trip of the section-building loop. -/
theorem buildSections_roundtrip (p : Nat) :
    ∀ (l : List (String × SectionT)) (acc : List (String × SectionT)),
      (∀ q ∈ l, SectionWF q.2) → (l.map Prod.fst).Nodup →
      (∀ k ∈ l.map Prod.fst, k ∉ acc.map Prod.fst) →
      buildSections p acc (l.map (fun q => (q.1, Section.to_dict q.2))) =
        Except.ok (acc ++ l.map (fun q => (q.1, Section.reparent p q.2))) := by
  intro l
  induction l with
  | nil => intro acc _ _ _; simp [buildSections]
  | cons q rest ih =>
      intro acc hwf hnd hdisj
      obtain ⟨k, sec⟩ := q
      have hwfs : SectionWF sec := hwf (k, sec) (List.mem_cons_self _ _)
      have hk : k ∉ acc.map Prod.fst := hdisj k (by simp)
      have step : buildSections p acc
          (((k, sec) :: rest).map (fun q => (q.1, Section.to_dict q.2))) =
          buildSections p (dictInsert acc k (Section.reparent p sec))
            (rest.map (fun q => (q.1, Section.to_dict q.2))) := by
        simp only [List.map_cons, Section.to_dict, buildSections,
          section_roundtrip p sec hwfs]
      rw [step, dictInsert_append_of_not_mem _ _ _ hk]
      have hnd' : (rest.map Prod.fst).Nodup := by
        simp only [List.map_cons] at hnd
        exact hnd.of_cons
      have hkrest : k ∉ rest.map Prod.fst := by
        simp only [List.map_cons] at hnd
        exact (List.nodup_cons.mp hnd).1
      have hdisj' : ∀ k2 ∈ rest.map Prod.fst,
          k2 ∉ (acc ++ [(k, Section.reparent p sec)]).map Prod.fst := by
        intro k2 hk2
        simp only [List.map_append, List.mem_append, List.map_cons,
          List.map_nil, List.mem_singleton]
        rintro (h1 | h2)
        · exact hdisj k2 (by simp [hk2]) h1
        · subst h2
          exact hkrest hk2
      rw [ih (acc ++ [(k, Section.reparent p sec)])
        (fun q hq => hwf q (List.mem_cons_of_mem _ hq)) hnd' hdisj']
      simp

/-- Claim C3: for any well-formed Document tree, export_data followed
by import_data under a handle rebuilds a structurally equal tree — the
same section keys in insertion order, and for each section the same
item keys in insertion order with equal title, content, image_id,
level and metadata fields (the reparented tree is equal field for field
except for the ownership links, which point at the importing handle). -/
theorem c3_roundtrip (p : Nat) (d : DataT) (h : DataWF d) :
    Data.import_data (Data.export_data d) p = Except.ok (Data.reparent p d) := by
  obtain ⟨hnd, hwf⟩ := h
  have hb := buildSections_roundtrip p d.sections [] hwf hnd (by simp)
  simp only [List.nil_append] at hb
  simp [Data.export_data, Data.export_with_version, Data.import_data,
    alookup, Data.mk_py, VERSION, hb, Data.reparent]

/-- Witness for C3: a concrete two-level document with metadata
round-trips into handle 7. -/
theorem c3_roundtrip_witness :
    Data.import_data (Data.export_data
        ⟨0, [("s", ⟨0, PVal.str "ty", PVal.str "de",
          [("k", ⟨0, PVal.str "t", PVal.str "c", PVal.str "img",
            PVal.int 1, PVal.dict [("m", PVal.int 5)]⟩)]⟩)]⟩) 7 =
      Except.ok (Data.reparent 7
        ⟨0, [("s", ⟨0, PVal.str "ty", PVal.str "de",
          [("k", ⟨0, PVal.str "t", PVal.str "c", PVal.str "img",
            PVal.int 1, PVal.dict [("m", PVal.int 5)]⟩)]⟩)]⟩) :=
  c3_roundtrip 7 _ (by
    refine ⟨by simp, ?_⟩
    intro q hq
    simp only [List.mem_singleton] at hq
    subst hq
    refine ⟨by simp, ?_⟩
    intro r hr
    simp only [List.mem_singleton] at hr
    subst hr
    exact fun hh => nomatch hh)

/-- Round trip of the Info file-building loop. -/
theorem buildFiles_roundtrip :
    ∀ (l : List (String × String)) (acc : List (String × String)),
      (l.map Prod.fst).Nodup →
      (∀ k ∈ l.map Prod.fst, k ∉ acc.map Prod.fst) →
      buildFiles acc (l.map (fun q => (q.1, PVal.str q.2))) =
        Except.ok (acc ++ l) := by
  intro l
  induction l with
  | nil => intro acc _ _; simp [buildFiles]
  | cons q rest ih =>
      intro acc hnd hdisj
      obtain ⟨k, v⟩ := q
      have hk : k ∉ acc.map Prod.fst := hdisj k (by simp)
      have step : buildFiles acc
          (((k, v) :: rest).map (fun q => (q.1, PVal.str q.2))) =
          buildFiles (dictInsert acc k v)
            (rest.map (fun q => (q.1, PVal.str q.2))) := by
        simp [buildFiles]
      rw [step, dictInsert_append_of_not_mem _ _ _ hk]
      have hnd' : (rest.map Prod.fst).Nodup := by
        simp only [List.map_cons] at hnd
        exact hnd.of_cons
      have hkrest : k ∉ rest.map Prod.fst := by
        simp only [List.map_cons] at hnd
        exact (List.nodup_cons.mp hnd).1
      have hdisj' : ∀ k2 ∈ rest.map Prod.fst,
          k2 ∉ (acc ++ [(k, v)]).map Prod.fst := by
        intro k2 hk2
        simp only [List.map_append, List.mem_append, List.map_cons,
          List.map_nil, List.mem_singleton]
        rintro (h1 | h2)
        · exact hdisj k2 (by simp [hk2]) h1
        · subst h2
          exact hkrest hk2
      rw [ih (acc ++ [(k, v)]) hnd' hdisj']
      simp

/-- Claim C4: importing a Document or Resource Index payload whose
embedded integer version tag is strictly greater than the supported
VERSION (2) fails with VersionError carrying the supported and found
versions; a tag equal to or below the supported version passes the
gate and the import succeeds. -/
theorem c4_version_gate (v : Int) (d : DataT) (i : InfoT) (p1 p2 : Nat)
    (hd : DataWF d) (hi : (i.files.map Prod.fst).Nodup) :
    (v > VERSION →
      Data.import_data (Data.export_with_version v d) p1 =
        Except.error (PyErr.versionError VERSION v) ∧
      Info.import_data (Info.export_with_version v i) p2 =
        Except.error (PyErr.versionError VERSION v)) ∧
    (v ≤ VERSION →
      Data.import_data (Data.export_with_version v d) p1 =
        Except.ok (Data.reparent p1 d) ∧
      Info.import_data (Info.export_with_version v i) p2 =
        Except.ok ⟨p2, i.name, i.files⟩) := by
  constructor
  · intro hv
    constructor
    · simp [Data.export_with_version, Data.import_data, alookup, hv]
    · simp [Info.export_with_version, Info.import_data, alookup, hv]
  · intro hv
    have hv' : ¬ v > VERSION := not_lt.mpr hv
    obtain ⟨hnd, hwf⟩ := hd
    have hb := buildSections_roundtrip p1 d.sections [] hwf hnd (by simp)
    simp only [List.nil_append] at hb
    have hf := buildFiles_roundtrip i.files [] hi (by simp)
    simp only [List.nil_append] at hf
    constructor
    · simp [Data.export_with_version, Data.import_data, alookup,
        Data.mk_py, hv', hb, Data.reparent]
    · simp [Info.export_with_version, Info.import_data, alookup, hv', hf]

/-- Witness for C4: version tag 3 is rejected with VersionError(2, 3)
and version tag 1 imports successfully, on concrete payloads. -/
theorem c4_version_gate_witness :
    Data.import_data (Data.export_with_version 3 ⟨0, []⟩) 5 =
      Except.error (PyErr.versionError VERSION 3) ∧
    Info.import_data (Info.export_with_version 3
        ⟨0, PVal.str "NoName", []⟩) 6 =
      Except.error (PyErr.versionError VERSION 3) ∧
    Data.import_data (Data.export_with_version 1 ⟨0, []⟩) 5 =
      Except.ok (Data.reparent 5 ⟨0, []⟩) ∧
    Info.import_data (Info.export_with_version 1
        ⟨0, PVal.str "NoName", []⟩) 6 =
      Except.ok ⟨6, PVal.str "NoName", []⟩ :=
  ⟨((c4_version_gate 3 ⟨0, []⟩ ⟨0, PVal.str "NoName", []⟩ 5 6
      ⟨by simp, by simp⟩ (by simp)).1 (by decide)).1,
   ((c4_version_gate 3 ⟨0, []⟩ ⟨0, PVal.str "NoName", []⟩ 5 6
      ⟨by simp, by simp⟩ (by simp)).1 (by decide)).2,
   ((c4_version_gate 1 ⟨0, []⟩ ⟨0, PVal.str "NoName", []⟩ 5 6
      ⟨by simp, by simp⟩ (by simp)).2 (by decide)).1,
   ((c4_version_gate 1 ⟨0, []⟩ ⟨0, PVal.str "NoName", []⟩ 5 6
      ⟨by simp, by simp⟩ (by simp)).2 (by decide)).2⟩

/-- The marker path is untouched by the entry-writing steps: every
trace state and the final state keep the old field of the input. -/
theorem runEntries_old (failAt : Option Nat) :
    ∀ (L : List (Nat × Bool)) (fs : FS),
      (runEntries failAt L fs).fin.old = fs.old ∧
      ∀ s ∈ (runEntries failAt L fs).states, s.old = fs.old := by
  intro L
  induction L with
  | nil => intro fs; simp [runEntries]
  | cons e rest ih =>
      intro fs
      obtain ⟨i, c⟩ := e
      by_cases hf : failAt = some i
      · simp [runEntries, hf]
      · have h2 := ih
          { fs with target := some (if c then FileData.newArch else FileData.draft) }
        constructor
        · simp only [runEntries, if_neg hf]
          exact h2.1
        · intro s hs
          simp only [runEntries, if_neg hf, List.mem_cons] at hs
          rcases hs with rfl | hs
          · rfl
          · exact h2.2 s hs

/-- An injected failure whose index occurs among the entry steps is
raised (the loop runs the steps in order and stops at the first step
carrying that index). -/
theorem runEntries_err_mem (k : Nat) :
    ∀ (L : List (Nat × Bool)) (fs : FS), k ∈ L.map Prod.fst →
      (runEntries (some k) L fs).err = some k := by
  intro L
  induction L with
  | nil => intro fs h; simp at h
  | cons e rest ih =>
      intro fs hmem
      obtain ⟨i, c⟩ := e
      by_cases hik : i = k
      · subst hik
        simp [runEntries]
      · have hf : (some k : Option Nat) ≠ some i := by
          intro hc
          exact hik (Option.some.inj hc).symm
        have hmem' : k ∈ rest.map Prod.fst := by
          simp only [List.map_cons, List.mem_cons] at hmem
          rcases hmem with h | h
          · exact absurd h.symm hik
          · exact h
        simp only [runEntries, if_neg hf]
        exact ih _ hmem'

/-- When the injected failure matches no entry-step index, the entry
loop completes without error. -/
theorem runEntries_err_notmem (failAt : Option Nat) :
    ∀ (L : List (Nat × Bool)) (fs : FS),
      (∀ i ∈ L.map Prod.fst, failAt ≠ some i) →
      (runEntries failAt L fs).err = Option.none := by
  intro L
  induction L with
  | nil => intro fs _; simp [runEntries]
  | cons e rest ih =>
      intro fs h
      obtain ⟨i, c⟩ := e
      have hf : failAt ≠ some i := h i (by simp)
      simp only [runEntries, if_neg hf]
      exact ih _ (fun j hj => h j (by simp [hj]))

/-- When the last entry step completes the container and the loop runs
to the end, the final state holds the fully written new archive. -/
theorem runEntries_fin_newArch (failAt : Option Nat) :
    ∀ (L : List (Nat × Bool)) (i : Nat) (fs : FS),
      (runEntries failAt (L ++ [(i, true)]) fs).err = Option.none →
      (runEntries failAt (L ++ [(i, true)]) fs).fin.target =
        some FileData.newArch := by
  intro L
  induction L with
  | nil =>
      intro i fs herr
      by_cases hf : failAt = some i
      · simp [runEntries, hf] at herr
      · simp [runEntries, hf]
  | cons e rest ih =>
      intro i fs herr
      obtain ⟨j, c⟩ := e
      by_cases hf : failAt = some j
      · rw [List.cons_append] at herr
        simp [runEntries, hf] at herr
      · rw [List.cons_append] at herr ⊢
        simp only [runEntries, if_neg hf] at herr ⊢
        exact ih i _ herr

/-- The entry-step list always ends with a completing step: the info
entry when there are no resource files, the last resource file
otherwise. -/
theorem entrySteps_concat (nf : Nat) :
    ∃ L i, entrySteps nf = L ++ [(i, true)] := by
  cases nf with
  | zero => exact ⟨[(0, false), (1, false)], 2, rfl⟩
  | succ m =>
      refine ⟨(0, false) :: (1, false) :: (2, (m + 1 : Nat) == 0) ::
        (List.range m).map (fun j => (3 + j, j + 1 == m + 1)), 3 + m, ?_⟩
      simp [entrySteps, List.range_succ]

/-- The entry-step indices are exactly 0 .. 2+nf. -/
theorem entrySteps_indices (nf k : Nat) :
    k ∈ (entrySteps nf).map Prod.fst ↔ k < 3 + nf := by
  simp only [entrySteps, List.map_cons, List.map_map, List.mem_cons,
    List.mem_map, List.mem_range, Function.comp]
  constructor
  · rintro (rfl | rfl | rfl | ⟨j, hj, rfl⟩) <;> omega
  · intro hk
    by_cases h0 : k = 0
    · exact Or.inl h0
    by_cases h1 : k = 1
    · exact Or.inr (Or.inl h1)
    by_cases h2 : k = 2
    · exact Or.inr (Or.inr (Or.inl h2))
    · exact Or.inr (Or.inr (Or.inr ⟨k - 3, by omega, by omega⟩))

/-- Claim C2: starting from a target that holds the previous valid
archive, a failure injected at any write-phase step (container opening,
any entry write, or the marker removal) makes save restore the exact
previous state — the target path holds the previous archive bytes, no
partial target file and no .old marker remain — and re-raise the
injected error; a save without failure leaves the new archive at the
target and deletes the marker. -/
theorem c2_rollback :
    (∀ (nf k : Nat), k ≤ 3 + nf →
        (save nf (some k) initFS).fin =
          ⟨some FileData.oldArch, Option.none⟩ ∧
        (save nf (some k) initFS).err = some k) ∧
    (∀ nf : Nat,
        (save nf Option.none initFS).fin =
          ⟨some FileData.newArch, Option.none⟩ ∧
        (save nf Option.none initFS).err = Option.none) := by
  constructor
  · intro nf k hk
    by_cases hlt : k < 3 + nf
    · have herr : (runEntries (some k) (entrySteps nf)
          (⟨Option.none, some FileData.oldArch⟩ : FS)).err = some k :=
        runEntries_err_mem k _ _ ((entrySteps_indices nf k).mpr hlt)
      constructor <;> simp [save, initFS, herr, handler]
    · have hkeq : k = 3 + nf := by omega
      subst hkeq
      have herr : (runEntries (some (3 + nf)) (entrySteps nf)
          (⟨Option.none, some FileData.oldArch⟩ : FS)).err = Option.none := by
        apply runEntries_err_notmem
        intro i hi hc
        have h1 : i < 3 + nf := (entrySteps_indices nf i).mp hi
        have h2 : 3 + nf = i := Option.some.inj hc
        omega
      constructor <;> simp [save, initFS, herr, removeOld, handler]
  · intro nf
    have herr : (runEntries Option.none (entrySteps nf)
        (⟨Option.none, some FileData.oldArch⟩ : FS)).err = Option.none :=
      runEntries_err_notmem _ _ _ (fun i _ hc => by cases hc)
    have htgt : (runEntries Option.none (entrySteps nf)
        (⟨Option.none, some FileData.oldArch⟩ : FS)).fin.target =
        some FileData.newArch := by
      obtain ⟨L, i, hLi⟩ := entrySteps_concat nf
      rw [hLi] at herr ⊢
      exact runEntries_fin_newArch Option.none L i _ herr
    constructor <;>
      simp [save, initFS, herr, removeOld, handler, htgt]

/-- Witness for C2: with one resource file, a failure injected at the
info-entry step (index 2) restores the previous archive and re-raises,
and the failure-free save installs the new archive. -/
theorem c2_rollback_witness :
    ((save 1 (some 2) initFS).fin = ⟨some FileData.oldArch, Option.none⟩ ∧
     (save 1 (some 2) initFS).err = some 2) ∧
    ((save 1 Option.none initFS).fin =
        ⟨some FileData.newArch, Option.none⟩ ∧
     (save 1 Option.none initFS).err = Option.none) :=
  ⟨c2_rollback.1 1 2 (by decide), c2_rollback.2 1⟩

/-- Counterexample to claim C1 as stated: during a failure-free save
over a previously valid archive the trace reaches a state in which the
target path holds a partially written container (the freshly opened
archive before all entries are in), so the target is not always
previous-archive, new-archive, or absent.  The state is observable
because the claim itself treats mid-save instants (after the rename
aside) as observable. -/
theorem c1_counterexample : ¬ claimC1 := fun h =>
  absurd
    (h 0 Option.none ⟨some FileData.draft, some FileData.oldArch⟩ (by decide))
    (by simp [targetIntact])

/-- Claim C1 amended: at every instant of every save run from a
previously valid archive, the target path holds the previous valid
archive, or the .old marker path holds it (while the target is absent
or partially written), or the target already holds the fully written
new archive — the previous archive is never lost before the new one is
complete, but the target path itself does transiently hold a partial
container during the write phase. -/
theorem c1_amended (nf : Nat) (failAt : Option Nat) :
    ∀ s ∈ (save nf failAt initFS).states,
      s.target = some FileData.oldArch ∨ s.old = some FileData.oldArch ∨
        s.target = some FileData.newArch := by
  have hold := runEntries_old failAt (entrySteps nf)
      (⟨Option.none, some FileData.oldArch⟩ : FS)
  intro s hs
  cases herr : (runEntries failAt (entrySteps nf)
      (⟨Option.none, some FileData.oldArch⟩ : FS)).err with
  | some k =>
      simp only [save, initFS, herr, handler, List.mem_cons, List.mem_append,
        List.mem_singleton, List.cons_append, List.nil_append,
        List.not_mem_nil, or_false] at hs
      rcases hs with rfl | rfl | hs | rfl | rfl
      · exact Or.inl rfl
      · exact Or.inr (Or.inl rfl)
      · exact Or.inr (Or.inl (hold.2 s hs))
      · exact Or.inr (Or.inl hold.1)
      · exact Or.inl rfl
  | none =>
      by_cases hfa : failAt = some (3 + nf)
      · have hrem : removeOld failAt nf (some FileData.oldArch)
            (runEntries failAt (entrySteps nf)
              (⟨Option.none, some FileData.oldArch⟩ : FS)).fin =
            ⟨[], (runEntries failAt (entrySteps nf)
              (⟨Option.none, some FileData.oldArch⟩ : FS)).fin,
             some (3 + nf)⟩ := by
          simp [removeOld, hfa]
        simp only [save, initFS, herr, hrem, handler, List.mem_cons,
          List.mem_append, List.mem_singleton, List.cons_append,
          List.nil_append, List.append_nil, List.not_mem_nil,
          or_false] at hs
        rcases hs with rfl | rfl | hs | rfl | rfl
        · exact Or.inl rfl
        · exact Or.inr (Or.inl rfl)
        · exact Or.inr (Or.inl (hold.2 s hs))
        · exact Or.inr (Or.inl hold.1)
        · exact Or.inl rfl
      · have hrem : removeOld failAt nf (some FileData.oldArch)
            (runEntries failAt (entrySteps nf)
              (⟨Option.none, some FileData.oldArch⟩ : FS)).fin =
            ⟨[{ (runEntries failAt (entrySteps nf)
                  (⟨Option.none, some FileData.oldArch⟩ : FS)).fin with
                old := Option.none }],
             { (runEntries failAt (entrySteps nf)
                  (⟨Option.none, some FileData.oldArch⟩ : FS)).fin with
                old := Option.none }, Option.none⟩ := by
          simp [removeOld, hfa]
        have htgt : (runEntries failAt (entrySteps nf)
            (⟨Option.none, some FileData.oldArch⟩ : FS)).fin.target =
            some FileData.newArch := by
          obtain ⟨L, i, hLi⟩ := entrySteps_concat nf
          rw [hLi] at herr ⊢
          exact runEntries_fin_newArch failAt L i _ herr
        simp only [save, initFS, herr, hrem, List.mem_cons, List.mem_append,
          List.mem_singleton, List.cons_append, List.nil_append,
          List.not_mem_nil, or_false] at hs
        rcases hs with rfl | rfl | hs | rfl
        · exact Or.inl rfl
        · exact Or.inr (Or.inl rfl)
        · exact Or.inr (Or.inl (hold.2 s hs))
        · exact Or.inr (Or.inr htgt)

/-- Witness for the amended C1: the post-rename state, in which the
target is absent and the marker holds the previous archive, occurs in
the trace of a save with one file failing at the first resource write,
and satisfies the amended disjunction. -/
theorem c1_amended_witness :
    (⟨Option.none, some FileData.oldArch⟩ : FS) ∈
      (save 1 (some 3) initFS).states ∧
    ((⟨Option.none, some FileData.oldArch⟩ : FS).target =
        some FileData.oldArch ∨
     (⟨Option.none, some FileData.oldArch⟩ : FS).old =
        some FileData.oldArch ∨
     (⟨Option.none, some FileData.oldArch⟩ : FS).target =
        some FileData.newArch) :=
  ⟨by decide, c1_amended 1 (some 3) _ (by decide)⟩

end BDMP
